import Mathlib

/-!
Verification of the `noted` SQL layer (`noted/sql.py`) and the entry-splitting
helper (`noted/core.py`).

The Python source is shallowly embedded: Python scalar values become the
inductive `PyVal`, the class hierarchy of SQL fragments becomes the inductive
`SQLPart`, `SQLBuilder` becomes a structure holding the text and parameter
buffers, and the `Model` class methods become functions that produce the built
`(sql, params)` pairs.  The backing SQLite store and the `dateutil` parser are
external collaborators; where their behaviour is needed it is modelled
explicitly (see the doc comments on `sqliteBind` and `parseTimestamp`).
-/

/-- Calendar date, mirroring Python's `datetime.date` (year/month/day).
Python enforces `1 <= year <= 9999`, `1 <= month <= 12`, `1 <= day <= 31`;
those bounds appear as the validity predicate `PyDate.valid` below. -/
structure PyDate where
  year : Nat
  month : Nat
  day : Nat
deriving DecidableEq, Repr

/-- Timestamp, mirroring Python's `datetime.datetime` at second granularity.
Microseconds and timezone offsets are elided from the model: the journal code
only needs that a stored timestamp parses back to an equal timestamp, and the
ISO rendering of the modelled fields is the `YYYY-MM-DD HH:MM:SS` core shared
by every variant. -/
structure PyDatetime where
  year : Nat
  month : Nat
  day : Nat
  hour : Nat
  minute : Nat
  second : Nat
deriving DecidableEq, Repr

/-- The calendar-date part of a timestamp, mirroring `datetime.datetime.date()`. -/
def PyDatetime.dateOf (dt : PyDatetime) : PyDate :=
  ⟨dt.year, dt.month, dt.day⟩

/-- Python runtime values that flow through the SQL layer: `None`, `int`,
`float`, `str`, `bytes` (a byte list), `datetime.date` and
`datetime.datetime`.  Python floats are carried as their exact rational
values; the SQL layer never performs float arithmetic, it only passes floats
through, so the carrier only needs decidable equality. -/
inductive PyVal where
  | none : PyVal
  | int : Int → PyVal
  | float : Rat → PyVal
  | str : String → PyVal
  | bytes : List Nat → PyVal
  | date : PyDate → PyVal
  | datetime : PyDatetime → PyVal
deriving DecidableEq, Repr

/-- The six semantic type tags a schema may declare for a field, i.e. the
Python classes usable as values of `Model.fields`. -/
inductive PyType where
  | int : PyType
  | float : PyType
  | str : PyType
  | bytes : PyType
  | date : PyType
  | datetime : PyType
deriving DecidableEq, Repr

/-- Python's `issubclass` restricted to the six schema classes.  The only
non-reflexive edge is `datetime.datetime ⊆ datetime.date`: in CPython the
`datetime` class inherits from `date`. -/
def py_issubclass (t u : PyType) : Bool :=
  t == u || (t == .datetime && u == .date)

/-- Python truthiness (`bool(v)`) for the modelled values, as used by
`Model.save`'s `if self.rowid:` test.  `None`, zero numbers, the empty string
and empty bytes are falsy; dates and datetimes are always truthy. -/
def pyTruthy : PyVal → Bool
  | .none => false
  | .int n => n != 0
  | .float q => q != 0
  | .str s => s != ""
  | .bytes b => !b.isEmpty
  | .date _ => true
  | .datetime _ => true

/-! ## SQL fragments (`SQLPart` subclasses in `sql.py`)

`RawSQL`, `Identifier`, `Literal` and `PList` become one inductive; the
parenthesised list carries its prefix/postfix strings (`PList` defaults to
`"("`/`")"`, the `List` subclass passes `""`/`""`). -/

inductive SQLPart where
  | raw : String → SQLPart
  | ident : String → SQLPart
  | lit : PyVal → SQLPart
  | plist : List SQLPart → String → String → SQLPart
deriving Repr

/-- The global regex substitution `re.sub(r'"', '\\"', s)` from
`Identifier.build`: every double-quote character is replaced by a backslash
followed by the double quote; all other characters pass through.  (A
single-character pattern makes the global substitution a per-character map.) -/
def reSubQuote : List Char → List Char
  | [] => []
  | c :: cs => (if c = '"' then ['\\', '"'] else [c]) ++ reSubQuote cs

/-- `Identifier.build`'s rendered text: the escaped name wrapped in double
quotes by the format template. -/
def quoteIdent (s : String) : String :=
  ⟨'"' :: (reSubQuote s.data ++ ['"'])⟩

mutual

/-- `build` of each `SQLPart` subclass in `sql.py`:
raw text renders verbatim with no parameters, an identifier renders quoted
with no parameters, a literal renders as the placeholder `?` carrying its
value as the sole parameter, and a `PList` renders its prefix, the members'
renderings joined by `", "`, and its postfix, with the members' parameters
concatenated in order. -/
def SQLPart.build : SQLPart → String × List PyVal
  | .raw s => (s, [])
  | .ident s => (quoteIdent s, [])
  | .lit v => ("?", [v])
  | .plist objs pre post =>
      let sp := SQLPart.buildJoin objs true
      (pre ++ sp.1 ++ post, sp.2)

/-- The loop body of `PList.build`: every member after the first is preceded
by the separator `", "`.  The `Bool` argument tracks whether the head is the
first member (loop index `i == 0`). -/
def SQLPart.buildJoin : List SQLPart → Bool → String × List PyVal
  | [], _ => ("", [])
  | o :: rest, first =>
      let b := SQLPart.build o
      let r := SQLPart.buildJoin rest false
      ((if first then "" else ", ") ++ b.1 ++ r.1, b.2 ++ r.2)

end

/-- `SQLBuilder`: a buffer of rendered SQL strings and a buffer of bound
parameters. -/
structure SQLBuilder where
  sql_buffer : List String
  param_buffer : List PyVal
deriving Repr

/-- `SQLBuilder.__init__(sql='')`: the text buffer starts holding the given
string, the parameter buffer starts empty. -/
def SQLBuilder.init (sql : String) : SQLBuilder :=
  ⟨[sql], []⟩

/-- `SQLBuilder.add`: render the fragment and append its text and parameters
to the buffers. -/
def SQLBuilder.add (b : SQLBuilder) (o : SQLPart) : SQLBuilder :=
  ⟨b.sql_buffer ++ [(SQLPart.build o).1], b.param_buffer ++ (SQLPart.build o).2⟩

/-- `SQLBuilder.add` on an already-rendered `(text, params)` pair.  In
`Model.create_table` the members handed to `PList` are themselves
`SQLBuilder`s, whose `build()` the list calls; this helper lets the embedding
splice such pre-rendered pairs. -/
def SQLBuilder.addBuilt (b : SQLBuilder) (sp : String × List PyVal) : SQLBuilder :=
  ⟨b.sql_buffer ++ [sp.1], b.param_buffer ++ sp.2⟩

/-- `SQLBuilder.build`: join the text buffer and tuple up the parameters. -/
def SQLBuilder.build (b : SQLBuilder) : String × List PyVal :=
  (String.join b.sql_buffer, b.param_buffer)

/-! ## Type coercion (`type_to_sql_type` / `value_to_type` in `sql.py`) -/

/-- `type_to_sql_type`: the cascade of `issubclass` tests from `sql.py`, in
source order — `int`, `float`, `str`, `bytes`, then `datetime.date`, then
`datetime.datetime`.  A type matching none of the tests falls off the end of
the Python function and yields `None`. -/
def type_to_sql_type (typ : PyType) : Option String :=
  if py_issubclass typ .int then some "INTEGER"
  else if py_issubclass typ .float then some "DOUBLE"
  else if py_issubclass typ .str then some "TEXT"
  else if py_issubclass typ .bytes then some "BLOB"
  else if py_issubclass typ .date then some "DATE"
  else if py_issubclass typ .datetime then some "DATETIME"
  else none

/-! ### ISO timestamp text

The store boundary turns `date`/`datetime` values into ISO text (the sqlite3
connector's default adapters emit `YYYY-MM-DD` and `YYYY-MM-DD HH:MM:SS`) and
`value_to_type` parses such text back via `dateutil.parser.parse`.  The
fixed-width decimal rendering and its inverse are defined first. -/

/-- Zero-padded fixed-width decimal digits of `n`, most significant first. -/
def padNat : Nat → Nat → List Char
  | 0, _ => []
  | w + 1, n => padNat w (n / 10) ++ [Nat.digitChar (n % 10)]

/-- Decimal value of a digit character. -/
def digitVal (c : Char) : Nat :=
  c.toNat - 48

/-- Whether a character is a decimal digit `0`–`9`. -/
def isDig (c : Char) : Bool :=
  48 ≤ c.toNat && c.toNat ≤ 57

/-- Left-to-right accumulation of decimal digits. -/
def readNat : List Char → Nat → Nat
  | [], acc => acc
  | c :: cs, acc => readNat cs (acc * 10 + digitVal c)

/-- The ISO rendering `YYYY-MM-DD` of a date, as emitted by the sqlite3
connector's default `datetime.date` adapter. -/
def fmtDate (d : PyDate) : String :=
  ⟨padNat 4 d.year ++ '-' :: padNat 2 d.month ++ '-' :: padNat 2 d.day⟩

/-- The ISO rendering `YYYY-MM-DD HH:MM:SS` of a timestamp, as emitted by the
sqlite3 connector's default `datetime.datetime` adapter (microseconds and
timezone elided, see `PyDatetime`). -/
def fmtDatetime (dt : PyDatetime) : String :=
  ⟨padNat 4 dt.year ++ '-' :: padNat 2 dt.month ++ '-' :: padNat 2 dt.day ++
    ' ' :: padNat 2 dt.hour ++ ':' :: padNat 2 dt.minute ++ ':' :: padNat 2 dt.second⟩

/-- Read `w` leading digit characters as a number, returning the remainder of
the input; fails if fewer than `w` characters are available or any of them is
not a digit. -/
def takeDigits (w : Nat) (cs : List Char) : Option (Nat × List Char) :=
  if (cs.take w).length = w && (cs.take w).all isDig then
    some (readNat (cs.take w) 0, cs.drop w)
  else
    none

/-- Consume one expected character. -/
def expectChar (c : Char) : List Char → Option (List Char)
  | x :: rest => if x = c then some rest else none
  | [] => none

/-- Modelled from the spec: `dateutil.parser.parse`, the external parser that
`coerce` applies to stored timestamp text ("parses a free-form textual
timestamp into an absolute instant").  The model covers exactly the texts the
modelled store boundary emits — `YYYY-MM-DD` (time components zero, as
`dateutil` defaults them) and `YYYY-MM-DD HH:MM:SS` — and rejects everything
else; `dateutil`'s wider free-form grammar is outside the model. -/
def parseTimestamp (s : String) : Option PyDatetime := do
  let (y, rest) ← takeDigits 4 s.data
  let rest ← expectChar '-' rest
  let (mo, rest) ← takeDigits 2 rest
  let rest ← expectChar '-' rest
  let (d, rest) ← takeDigits 2 rest
  match rest with
  | [] => some ⟨y, mo, d, 0, 0, 0⟩
  | _ => do
    let rest ← expectChar ' ' rest
    let (h, rest) ← takeDigits 2 rest
    let rest ← expectChar ':' rest
    let (mi, rest) ← takeDigits 2 rest
    let rest ← expectChar ':' rest
    let (sec, rest) ← takeDigits 2 rest
    match rest with
    | [] => some ⟨y, mo, d, h, mi, sec⟩
    | _ => none

/-- Modelled from the spec: Python's `int(value)` constructor as applied by
`coerce`'s numeric branch to stored scalars.  An `int` passes through, a
`float` truncates toward zero, numeric text parses; other inputs raise
(`None` is unreachable — `value_to_type` short-circuits it first). -/
def pyIntOf : PyVal → Option PyVal
  | .int n => some (.int n)
  | .float q => some (.int (if q < 0 then q.ceil else q.floor))
  | .str s => (s.toInt?).map PyVal.int
  | _ => none

/-- Modelled from the spec: Python's `float(value)` constructor as applied by
`coerce`'s numeric branch.  A `float` passes through and an `int` widens;
numeric-text parsing is outside the model (no claim exercises it), so text
raises here. -/
def pyFloatOf : PyVal → Option PyVal
  | .float q => some (.float q)
  | .int n => some (.float n)
  | _ => none

/-- Modelled from the spec: Python's `str(value)` for the stringify branch of
`coerce` ("stringifies other inputs").  Numbers render decimally and temporal
values render in ISO form, as CPython's `str` does. -/
def pyStrOf : PyVal → String
  | .none => "None"
  | .int n => toString n
  | .float q => toString q
  | .str s => s
  | .bytes _ => ""
  | .date d => fmtDate d
  | .datetime dt => fmtDatetime dt

/-- Modelled from the spec: UTF-8 decoding (`bytes.decode()`) for the text
branch of `coerce` ("decodes binary input as UTF-8"); malformed byte
sequences raise. -/
def utf8Decode (bs : List Nat) : Option String :=
  String.fromUTF8? (ByteArray.mk (Array.mk (bs.map UInt8.ofNat)))

/-- UTF-8 encoding (`str.encode()`) for the binary branch of `coerce`
("encodes text input as UTF-8"). -/
def utf8Encode (s : String) : List Nat :=
  (String.toUTF8 s).toList.map UInt8.toNat

/-- `value_to_type` from `sql.py` (`coerce` in the spec), with an exception
modelled as `none`:

* a `None` value is returned unchanged (checked first);
* numeric tags apply the `int`/`float` constructor to the raw value;
* the text tag passes text through, decodes bytes as UTF-8 and stringifies
  anything else;
* the binary tag passes bytes through, encodes text as UTF-8 and applies the
  `bytes` constructor to anything else (an integer `n` yields `n` zero
  bytes; other inputs raise);
* the datetime tag parses stored text via `dateutil.parser.parse` (non-text
  input raises a `TypeError`);
* the date tag parses the same way and truncates via `.date()`.

The `issubclass` cascade follows source order; note that unlike
`type_to_sql_type` this function tests `datetime.datetime` before
`datetime.date`. -/
def value_to_type (value : PyVal) (typ : PyType) : Option PyVal :=
  if value = .none then
    some value
  else if py_issubclass typ .int || py_issubclass typ .float then
    (if typ = .int then pyIntOf value else pyFloatOf value)
  else if py_issubclass typ .str then
    (match value with
     | .str s => some (.str s)
     | .bytes b => (utf8Decode b).map PyVal.str
     | v => some (.str (pyStrOf v)))
  else if py_issubclass typ .bytes then
    (match value with
     | .bytes b => some (.bytes b)
     | .str s => some (.bytes (utf8Encode s))
     | .int n => if 0 ≤ n then some (.bytes (List.replicate n.toNat 0)) else none
     | _ => none)
  else if py_issubclass typ .datetime then
    (match value with
     | .str s => (parseTimestamp s).map PyVal.datetime
     | _ => none)
  else if py_issubclass typ .date then
    (match value with
     | .str s => (parseTimestamp s).map (fun dt => PyVal.date dt.dateOf)
     | _ => none)
  else
    none

/-! ## The record model (`Model` in `sql.py`)

A Python `Model` instance is an object whose attributes hold the identity
(`rowid`) and one value per declared field; it is embedded as a total
attribute map.  An attribute never assigned reads as `None` in the model
(Python would raise `AttributeError`; no modelled operation reads an
unassigned attribute).  A schema (`Model.fields`, a `dict` in declaration
order) is embedded as an association list of field name and type tag. -/

def Record : Type := String → PyVal

/-- Python `setattr(inst, f, v)`. -/
def Record.setattr (r : Record) (f : String) (v : PyVal) : Record :=
  fun g => if g = f then v else r g

/-- The state of a freshly constructed instance `cls()`: `rowid` is `None`
and every declared field is `None`, i.e. every attribute reads `None`. -/
def Record.blank : Record :=
  fun _ => .none

/-- `Model.__init__(**kwargs)`: `rowid` is taken from the keyword arguments
(defaulting to `None`), every declared field starts as `None`, then each
keyword argument is assigned — unless its name is neither a declared field
nor `rowid`, in which case a `ValueError` is raised at the first such name
(before any persistence; the constructor never touches the store). -/
def Model.init (fields : List (String × PyType)) (name : String)
    (kwargs : List (String × PyVal)) : Except String Record :=
  let keys := fields.map Prod.fst
  match kwargs.find? (fun kv => !(keys.contains kv.1 || kv.1 == "rowid")) with
  | some kv =>
      .error ("No such field \"" ++ kv.1 ++ "\" on table \"" ++ name ++ "\"")
  | none =>
      let base := Record.blank.setattr "rowid" ((kwargs.lookup "rowid").getD .none)
      let base := keys.foldl (fun r f => r.setattr f .none) base
      .ok (kwargs.foldl (fun r kv => r.setattr kv.1 kv.2) base)

/-! ### Statement builders

Each `Model` method assembles its statement through `SQLBuilder`; the
embeddings below produce the built `(sql, params)` pair that the method hands
to the connection. -/

/-- The loop of `PList.build` applied to already-rendered member pairs: every
member after the first is preceded by `", "`, and parameter lists concatenate
in order. -/
def joinBuilt : List (String × List PyVal) → Bool → String × List PyVal
  | [], _ => ("", [])
  | p :: rest, first =>
      let r := joinBuilt rest false
      ((if first then "" else ", ") ++ p.1 ++ r.1, p.2 ++ r.2)

/-- `PList.build` over already-rendered member pairs: prefix, separator-joined
members, postfix. -/
def plistBuilt (parts : List (String × List PyVal)) (pre post : String) :
    String × List PyVal :=
  let sp := joinBuilt parts true
  (pre ++ sp.1 ++ post, sp.2)

/-- One column of `Model.create_table`'s field list: when `type_to_sql_type`
resolves (a non-empty, hence truthy, string), a nested
`SQLBuilder().add(Identifier(field)).add_sql(' ').add(Identifier(sql_type))`;
otherwise the bare `Identifier(field)`. -/
def fieldColumn (field : String) (typ : PyType) : String × List PyVal :=
  match type_to_sql_type typ with
  | some t =>
      ((((SQLBuilder.init "").add (.ident field)).add (.raw " ")).add (.ident t)).build
  | none => (SQLPart.ident field).build

/-- `Model.create_table`'s built statement:
`SQLBuilder('CREATE VIRTUAL TABLE IF NOT EXISTS ').add_identifier(name)
.add_sql(' USING fts4').add(PList(fields))`. -/
def Model.create_table_build (name : String) (fields : List (String × PyType)) :
    String × List PyVal :=
  (((SQLBuilder.init "CREATE VIRTUAL TABLE IF NOT EXISTS ").add
      (.ident name)).add (.raw " USING fts4")).addBuilt
    (plistBuilt (fields.map (fun p => fieldColumn p.1 p.2)) "(" ")") |>.build

/-- `Model.query`'s built statement: `SQLBuilder('SELECT ')` followed by the
unparenthesised `List` of identifiers for `('rowid',) + fields`, then
`' FROM '` and the table identifier. -/
def Model.query_build (name : String) (fields : List (String × PyType)) :
    String × List PyVal :=
  let cols := "rowid" :: fields.map Prod.fst
  (((SQLBuilder.init "SELECT ").add
      (.plist (cols.map SQLPart.ident) "" "")).add (.raw " FROM ")).add
    (.ident name) |>.build

/-- `Model.insert`'s built statement: `INSERT INTO`, the table identifier, the
parenthesised field identifiers, `VALUES`, and the parenthesised literals of
the record's field values in declaration order (`for val in self` iterates
`__getitem__`, i.e. `getattr` over `fields.keys()`). -/
def Model.insert_build (name : String) (fields : List (String × PyType))
    (r : Record) : String × List PyVal :=
  ((((SQLBuilder.init "INSERT INTO ").add (.ident name)).add
      (.plist (fields.map (fun p => SQLPart.ident p.1)) "(" ")")).add
      (.raw " VALUES ")).add
    (.plist (fields.map (fun p => SQLPart.lit (r p.1))) "(" ")") |>.build

/-- `Model.update`'s built statement: `UPDATE`, the table identifier, the
parenthesised field identifiers, ` = `, the parenthesised literals of the
record's field values, and ` WHERE rowid = ` with the record's `rowid` bound
as a literal. -/
def Model.update_build (name : String) (fields : List (String × PyType))
    (r : Record) : String × List PyVal :=
  (((((SQLBuilder.init "UPDATE ").add (.ident name)).add
      (.plist (fields.map (fun p => SQLPart.ident p.1)) "(" ")")).add
      (.raw " = ")).add
      (.plist (fields.map (fun p => SQLPart.lit (r p.1))) "(" ")")).add
      (.raw " WHERE rowid = ") |>.add (.lit (r "rowid")) |>.build

/-- `Model.save`'s built statement: `if self.rowid:` — truthiness, not mere
presence — selects `update`, else `insert`; the method does nothing besides
this dispatch. -/
def Model.save_build (name : String) (fields : List (String × PyType))
    (r : Record) : String × List PyVal :=
  if pyTruthy (r "rowid") then Model.update_build name fields r
  else Model.insert_build name fields r

/-! ### The store boundary

The SQL engine is an external collaborator ("a black-box connection that
accepts parameterized statements and returns rows").  The model below is the
minimal store faithful to that contract: a table is the list of its rows in
insertion order, a row stores the bound parameter values, and row identities
are positional (`rowid = position + 1`, matching the store's assignment of
consecutive identities to consecutive inserts from empty). -/

abbrev Table : Type := List (List PyVal)

/-- Modelled from the spec: parameter binding at the store boundary.  Numbers,
text, bytes and `None` bind natively ("relying on the store's native
parameter typing"); `date`/`datetime` values are rendered to ISO text by the
connector's default adapters, which is the text `coerce` later parses. -/
def sqliteBind : PyVal → PyVal
  | .date d => .str (fmtDate d)
  | .datetime dt => .str (fmtDatetime dt)
  | v => v

/-- `Model.insert` at the store: execute the built INSERT (appending the
bound field values as a new row) and assign the store-generated identity
(`self.rowid = curs.lastrowid`) back onto the record. -/
def Model.insertExec (fields : List (String × PyType)) (r : Record) (t : Table) :
    Record × Table :=
  (r.setattr "rowid" (.int (t.length + 1)),
   t ++ [fields.map (fun p => sqliteBind (r p.1))])

/-- `Model.update` at the store: execute the built UPDATE, rebinding every
field of the row whose identity equals the record's `rowid`; the record is
unchanged. -/
def Model.updateExec (fields : List (String × PyType)) (r : Record) (t : Table) :
    Table :=
  t.enum.map (fun ic =>
    if r "rowid" = .int (ic.1 + 1) then fields.map (fun p => sqliteBind (r p.1))
    else ic.2)

/-- `Model.save` at the store: the truthiness dispatch of `save_build`
applied to the execution models. -/
def Model.saveExec (fields : List (String × PyType)) (r : Record) (t : Table) :
    Record × Table :=
  if pyTruthy (r "rowid") then (r, Model.updateExec fields r t)
  else Model.insertExec fields r t

/-- The loop body of `Model.from_row`: assign one selected column to its
attribute, coercing via `value_to_type` exactly when the column name is a
declared field; a coercion failure propagates as the exception `none`. -/
def rowStep (fields : List (String × PyType)) (inst : Record)
    (fv : String × PyVal) : Option Record :=
  match fields.lookup fv.1 with
  | some typ => (value_to_type fv.2 typ).map (fun v => inst.setattr fv.1 v)
  | none => some (inst.setattr fv.1 fv.2)

/-- `Model.from_row`: starting from a fresh instance `cls()` (every attribute
`None`), assign each selected column via `rowStep` (so `rowid`, not being a
declared field, passes through unconverted). -/
def Model.from_row (fields : List (String × PyType)) (cols : List String)
    (row : List PyVal) : Option Record :=
  (cols.zip row).foldlM (rowStep fields) Record.blank

/-- `Model.query` at the store: the built SELECT names `rowid` followed by the
declared fields in declaration order, so the store hands back, for each
stored row, its identity followed by its cells in that order; each raw row
then passes through `from_row`. -/
def Model.queryRecords (fields : List (String × PyType)) (t : Table) :
    List (Option Record) :=
  t.enum.map (fun ic =>
    Model.from_row fields ("rowid" :: fields.map Prod.fst)
      (.int (ic.1 + 1) :: ic.2))

/-! ## `noted/core.py`: the journal schema and `split_entry` -/

/-- The `Journal` model's declared schema, in declaration order. -/
def Journal.fields : List (String × PyType) :=
  [("created_at", .datetime), ("finished_at", .datetime),
   ("happened_at", .datetime), ("author", .str), ("title", .str),
   ("body", .str)]

/-- `Journal.name`. -/
def Journal.name : String := "journal"

/-- `MAX_TITLE_LEN` from `core.py`. -/
def MAX_TITLE_LEN : Nat := 80

/-- Python's `str.isspace` per character, the predicate behind
`str.lstrip()`/`str.strip()`: the Unicode whitespace codepoints
09–0D, 1C–1F, 20, 85, A0, 1680, 2000–200A, 2028, 2029, 202F, 205F, 3000. -/
def pyIsSpace (c : Char) : Bool :=
  c.toNat ∈ [0x09, 0x0a, 0x0b, 0x0c, 0x0d, 0x1c, 0x1d, 0x1e, 0x1f, 0x20,
    0x85, 0xa0, 0x1680, 0x2000, 0x2001, 0x2002, 0x2003, 0x2004, 0x2005,
    0x2006, 0x2007, 0x2008, 0x2009, 0x200a, 0x2028, 0x2029, 0x202f,
    0x205f, 0x3000]

/-- Python `str.lstrip()`. -/
def pyLStrip (cs : List Char) : List Char :=
  cs.dropWhile pyIsSpace

/-- Python `str.strip()`. -/
def pyStrip (cs : List Char) : List Char :=
  ((cs.dropWhile pyIsSpace).reverse.dropWhile pyIsSpace).reverse

/-- The character loop of `split_entry`: stop before a newline or carriage
return; append the character; once the title has reached `MAX_TITLE_LEN`
characters, append the ellipsis and stop. -/
def titleLoop : List Char → List Char → List Char
  | [], title => title
  | ch :: rest, title =>
      if ch = '\n' ∨ ch = '\r' then title
      else
        let title' := title ++ [ch]
        if MAX_TITLE_LEN ≤ title'.length then title' ++ ['…']
        else titleLoop rest title'

/-- `split_entry` from `core.py`: left-strip the entry, take the title by the
character loop, and take the body as the remainder of the stripped entry from
index `len(title)` on, stripped at both ends. -/
def split_entry (entry : String) : String × String :=
  let e := pyLStrip entry.data
  let title := titleLoop e []
  let body := pyStrip (e.drop title.length)
  (⟨title⟩, ⟨body⟩)

/-! ## Auxiliary definitions for the statements of the claims -/

mutual

/-- Replace every literal's value by `None`, keeping everything else: two
fragments with equal erasures are "identical except for the values held by
their Literal fragments". -/
def SQLPart.erase : SQLPart → SQLPart
  | .raw s => .raw s
  | .ident s => .ident s
  | .lit _ => .lit .none
  | .plist objs pre post => .plist (SQLPart.eraseList objs) pre post

/-- `SQLPart.erase` over a member list. -/
def SQLPart.eraseList : List SQLPart → List SQLPart
  | [] => []
  | o :: rest => SQLPart.erase o :: SQLPart.eraseList rest

end

mutual

/-- No raw text, identifier name, or list prefix/postfix inside the fragment
contains the placeholder character `?`.  (A `?` smuggled into such text is
not a parameter placeholder to the store only by the grace of quoting; the
placeholder-alignment property of the builder is stated under this
condition.) -/
def SQLPart.noQ : SQLPart → Bool
  | .raw s => s.data.all (fun c => c != '?')
  | .ident s => s.data.all (fun c => c != '?')
  | .lit _ => true
  | .plist objs pre post =>
      pre.data.all (fun c => c != '?') && post.data.all (fun c => c != '?') &&
        SQLPart.noQList objs

/-- `SQLPart.noQ` over a member list. -/
def SQLPart.noQList : List SQLPart → Bool
  | [] => true
  | o :: rest => SQLPart.noQ o && SQLPart.noQList rest

end

/-- The bounds Python's `datetime.date` constructor enforces on its fields. -/
def PyDate.valid (d : PyDate) : Bool :=
  1 ≤ d.year && d.year ≤ 9999 && 1 ≤ d.month && d.month ≤ 12 &&
    1 ≤ d.day && d.day ≤ 31

/-- The bounds Python's `datetime.datetime` constructor enforces. -/
def PyDatetime.valid (dt : PyDatetime) : Bool :=
  dt.dateOf.valid && dt.hour ≤ 23 && dt.minute ≤ 59 && dt.second ≤ 59

/-- A value of the declared Python type for a field (or `None`, or — for a
`date` field — a timestamp, which the declared type truncates): the values
for which the round-trip claim is meaningful. -/
def storable : PyVal → PyType → Bool
  | .none, _ => true
  | .int _, .int => true
  | .float _, .float => true
  | .str _, .str => true
  | .bytes _, .bytes => true
  | .datetime dt, .datetime => dt.valid
  | .datetime dt, .date => dt.valid
  | .date d, .date => d.valid
  | _, _ => false

/-- The declared type's natural precision applied to a supplied value: a
timestamp supplied for a `date` field retains only calendar-date granularity;
every other storable value is retained exactly. -/
def naturalValue : PyVal → PyType → PyVal
  | .datetime dt, .date => .date dt.dateOf
  | v, _ => v

/-- The value `rowStep` assigns for one selected column, assuming the
coercion does not raise. -/
def coerceStep (fields : List (String × PyType)) (fv : String × PyVal) : PyVal :=
  match fields.lookup fv.1 with
  | some ty => (value_to_type fv.2 ty).getD .none
  | none => fv.2

/-- Whether `rowStep` succeeds on one selected column. -/
def stepOK (fields : List (String × PyType)) (fv : String × PyVal) : Bool :=
  match fields.lookup fv.1 with
  | some ty => (value_to_type fv.2 ty).isSome
  | none => true

/-- The escaping rule as the claim words it: each embedded double-quote
character is escaped by a preceding backslash, all other characters stand
unchanged. -/
def escapedSpec (s : String) : List Char :=
  (s.data.map (fun c => if c = '"' then ['\\', c] else [c])).flatten

/-- A concrete fresh journal entry (no `rowid`), used to instantiate the
round-trip property. -/
def journalSampleRecord : Record :=
  (((((Record.blank.setattr "created_at"
    (.datetime ⟨2026, 10, 12, 3, 4, 5⟩)).setattr "finished_at"
    (.datetime ⟨2026, 10, 12, 3, 10, 0⟩)).setattr "happened_at"
    .none).setattr "author" (.str "someone")).setattr "title"
    (.str "hello")).setattr "body" (.str "world")

/-! ## Helper lemmas -/

theorem intercalate_go_data (s : String) :
    ∀ (as : List String) (acc : String),
      (String.intercalate.go acc s as).data =
        acc.data ++ (as.map (fun a => s.data ++ a.data)).flatten := by
  intro as
  induction as with
  | nil => intro acc; simp [String.intercalate.go]
  | cons a as ih =>
      intro acc
      simp [String.intercalate.go, ih, String.data_append, List.append_assoc]

theorem data_intercalate_cons (s x : String) (xs : List String) :
    (String.intercalate s (x :: xs)).data =
      x.data ++ (xs.map (fun a => s.data ++ a.data)).flatten := by
  simp [String.intercalate, intercalate_go_data]

theorem joinBuilt_snd (parts : List (String × List PyVal)) :
    ∀ first, (joinBuilt parts first).2 = (parts.map Prod.snd).flatten := by
  induction parts with
  | nil => intro first; simp [joinBuilt]
  | cons p rest ih => intro first; simp [joinBuilt, ih]

theorem joinBuilt_false_data (parts : List (String × List PyVal)) :
    ((joinBuilt parts false).1).data =
      (parts.map (fun p => (", " : String).data ++ p.1.data)).flatten := by
  induction parts with
  | nil => simp [joinBuilt]
  | cons p rest ih => simp [joinBuilt, ih, String.data_append]

theorem joinBuilt_true_data (parts : List (String × List PyVal)) :
    ((joinBuilt parts true).1).data =
      (String.intercalate ", " (parts.map Prod.fst)).data := by
  cases parts with
  | nil => simp [joinBuilt, String.intercalate]
  | cons p rest =>
      simp [joinBuilt, joinBuilt_false_data, data_intercalate_cons,
        String.data_append, List.map_map, Function.comp_def]

theorem plistBuilt_eq (parts : List (String × List PyVal)) (pre post : String) :
    plistBuilt parts pre post =
      (pre ++ String.intercalate ", " (parts.map Prod.fst) ++ post,
       (parts.map Prod.snd).flatten) := by
  unfold plistBuilt
  refine Prod.ext ?_ (joinBuilt_snd parts true)
  apply String.ext
  simp [String.data_append, joinBuilt_true_data]

theorem reSubQuote_eq_escapedSpec (l : List Char) :
    reSubQuote l = (l.map (fun c => if c = '"' then ['\\', c] else [c])).flatten := by
  induction l with
  | nil => rfl
  | cons c cs ih =>
      by_cases h : c = '"' <;> simp [reSubQuote, h, ih]

/-! ## The claims -/

/-- C4: for every string `s`, rendering `Identifier(s)` yields a double
quote, then `s` with each embedded double-quote character escaped by a
preceding backslash, then a closing double quote, together with an empty
parameter sequence. -/
theorem identifier_quoting (s : String) :
    (SQLPart.ident s).build = (⟨'"' :: (escapedSpec s ++ ['"'])⟩, []) := by
  simp only [SQLPart.build, quoteIdent, escapedSpec, reSubQuote_eq_escapedSpec]

/-- C2: the storage-type mapping evaluated on all six semantic tags.  Five
agree with the claim, but the `datetime` tag maps to `DATE`: in CPython
`datetime.datetime` is a subclass of `datetime.date`, and `type_to_sql_type`
tests the `date` superclass first, so its `DATETIME` branch is unreachable —
the code contradicts the claimed (and clearly intended) `datetime→DATETIME`
mapping. -/
theorem storage_type_mapping_eval :
    type_to_sql_type .int = some "INTEGER" ∧
    type_to_sql_type .float = some "DOUBLE" ∧
    type_to_sql_type .str = some "TEXT" ∧
    type_to_sql_type .bytes = some "BLOB" ∧
    type_to_sql_type .date = some "DATE" ∧
    type_to_sql_type .datetime = some "DATE" := by
  decide

/-- C6 (counterexample): for the one-field schema `title: str` and table
`t`, the rendered DDL has no space between `fts4` and the column list and
renders the storage-type token as a quoted identifier, so it differs from
the claimed text `CREATE VIRTUAL TABLE IF NOT EXISTS "t" USING fts4 ("title"
TEXT)`. -/
theorem create_table_exact_counterexample :
    Model.create_table_build "t" [("title", .str)] =
      ("CREATE VIRTUAL TABLE IF NOT EXISTS \"t\" USING fts4(\"title\" \"TEXT\")", []) ∧
    ("CREATE VIRTUAL TABLE IF NOT EXISTS \"t\" USING fts4(\"title\" \"TEXT\")" : String) ≠
      "CREATE VIRTUAL TABLE IF NOT EXISTS \"t\" USING fts4 (\"title\" TEXT)" := by
  constructor
  · rfl
  · decide

/-- C6 (amended): for every schema, table creation renders exactly
`CREATE VIRTUAL TABLE IF NOT EXISTS "<name>" USING fts4("<col1>" "<TYPE>",
...)` — no space before the parenthesised column list; each column with a
resolvable type is its quoted name, a space, and its storage-type token
itself rendered as a quoted identifier; a column without a resolvable type is
a bare quoted identifier; and the statement carries no bound parameters. -/
theorem create_table_statement_shape (name : String)
    (fields : List (String × PyType)) :
    Model.create_table_build name fields =
      ("CREATE VIRTUAL TABLE IF NOT EXISTS " ++ quoteIdent name ++ " USING fts4(" ++
        String.intercalate ", " (fields.map (fun p =>
          match type_to_sql_type p.2 with
          | some t => quoteIdent p.1 ++ " " ++ quoteIdent t
          | none => quoteIdent p.1)) ++ ")", []) := by
  have hcol : ∀ p : String × PyType,
      fieldColumn p.1 p.2 =
        ((match type_to_sql_type p.2 with
          | some t => quoteIdent p.1 ++ " " ++ quoteIdent t
          | none => quoteIdent p.1), []) := by
    intro p
    unfold fieldColumn
    cases htp : type_to_sql_type p.2 with
    | none => simp [SQLPart.build]
    | some t =>
        apply Prod.ext
        · apply String.ext
          simp [SQLBuilder.build, SQLBuilder.add, SQLBuilder.init, SQLPart.build,
            String.data_join, String.data_append]
        · simp [SQLBuilder.build, SQLBuilder.add, SQLBuilder.init, SQLPart.build]
  unfold Model.create_table_build
  rw [show (fields.map (fun p => fieldColumn p.1 p.2)) =
      fields.map (fun p =>
        ((match type_to_sql_type p.2 with
          | some t => quoteIdent p.1 ++ " " ++ quoteIdent t
          | none => quoteIdent p.1), [])) from List.map_congr_left (fun p _ => hcol p)]
  rw [plistBuilt_eq]
  apply Prod.ext
  · apply String.ext
    simp [SQLBuilder.build, SQLBuilder.add, SQLBuilder.addBuilt, SQLBuilder.init,
      SQLPart.build, String.data_join, String.data_append, List.map_map,
      Function.comp_def]
  · simp [SQLBuilder.build, SQLBuilder.add, SQLBuilder.addBuilt, SQLBuilder.init,
      SQLPart.build, List.map_map, Function.comp_def]

theorem count_eq_zero_of_all_ne (l : List Char)
    (h : l.all (fun c => c != '?') = true) : l.count '?' = 0 := by
  rw [List.count_eq_zero]
  intro hc
  have := List.all_eq_true.mp h _ hc
  simp at this

theorem mem_reSubQuote (c : Char) : ∀ l : List Char,
    c ∈ reSubQuote l → c = '\\' ∨ c ∈ l := by
  intro l
  induction l with
  | nil => intro h; cases h
  | cons a rest ih =>
      intro h
      rw [reSubQuote] at h
      rcases List.mem_append.mp h with h1 | h2
      · by_cases ha : a = '"'
        · subst ha
          simp at h1
          rcases h1 with h1 | h1
          · exact Or.inl h1
          · exact Or.inr (by simp [h1])
        · rw [if_neg ha] at h1
          simp at h1
          exact Or.inr (by simp [h1])
      · rcases ih h2 with h3 | h3
        · exact Or.inl h3
        · exact Or.inr (List.mem_cons_of_mem _ h3)

mutual

theorem erase_build_text (p : SQLPart) :
    (SQLPart.build (SQLPart.erase p)).1 = (SQLPart.build p).1 := by
  cases p with
  | raw s => rfl
  | ident s => rfl
  | lit v => rfl
  | plist objs pre post =>
      simp [SQLPart.erase, SQLPart.build, erase_buildJoin_text objs true]

theorem erase_buildJoin_text (l : List SQLPart) (first : Bool) :
    (SQLPart.buildJoin (SQLPart.eraseList l) first).1 =
      (SQLPart.buildJoin l first).1 := by
  cases l with
  | nil => rfl
  | cons o rest =>
      simp [SQLPart.eraseList, SQLPart.buildJoin, erase_build_text o,
        erase_buildJoin_text rest false]

end

mutual

theorem noQ_count (p : SQLPart) (h : SQLPart.noQ p = true) :
    ((SQLPart.build p).1.data.count '?') = ((SQLPart.build p).2).length := by
  cases p with
  | raw s => simpa [SQLPart.build] using count_eq_zero_of_all_ne s.data h
  | ident s =>
      have h0 : (reSubQuote s.data).count '?' = 0 := by
        rw [List.count_eq_zero]
        intro hc
        rcases mem_reSubQuote _ _ hc with h1 | h1
        · cases h1
        · have := List.all_eq_true.mp h _ h1
          simp at this
      simp [SQLPart.build, quoteIdent, List.count_cons, List.count_append, h0]
  | lit v => simp [SQLPart.build]
  | plist objs pre post =>
      rw [SQLPart.noQ] at h
      have h1 := (Bool.and_eq_true _ _).mp h
      have h2 := (Bool.and_eq_true _ _).mp h1.1
      simp [SQLPart.build, String.data_append, List.count_append,
        count_eq_zero_of_all_ne _ h2.1, count_eq_zero_of_all_ne _ h2.2,
        noQList_count objs true h1.2]

theorem noQList_count (l : List SQLPart) (first : Bool)
    (h : SQLPart.noQList l = true) :
    ((SQLPart.buildJoin l first).1.data.count '?') =
      ((SQLPart.buildJoin l first).2).length := by
  cases l with
  | nil => cases first <;> simp [SQLPart.buildJoin]
  | cons o rest =>
      rw [SQLPart.noQList] at h
      have h1 := (Bool.and_eq_true _ _).mp h
      have hsep : ((if first then "" else ", ") : String).data.count '?' = 0 := by
        cases first <;> decide
      simp [SQLPart.buildJoin, String.data_append, List.count_append, hsep,
        noQ_count o h1.1, noQList_count rest false h1.2]

end

theorem foldl_add_state : ∀ (frags : List SQLPart) (b : SQLBuilder),
    frags.foldl SQLBuilder.add b =
      ⟨b.sql_buffer ++ frags.map (fun f => (SQLPart.build f).1),
       b.param_buffer ++ (frags.map (fun f => (SQLPart.build f).2)).flatten⟩ := by
  intro frags
  induction frags with
  | nil => intro b; simp
  | cons f fs ih => intro b; simp [ih, SQLBuilder.add]

/-- C3: every `Literal` renders as the single placeholder `?` with its value
carried only in the parameter tuple, and any two fragments that are
identical except for the values held by their literals (equal erasures)
render to identical SQL text — so no literal value can alter the statement's
structure. -/
theorem literal_binding_safety :
    (∀ v : PyVal, SQLPart.build (.lit v) = ("?", [v])) ∧
    (∀ a b : SQLPart, SQLPart.erase a = SQLPart.erase b →
      (SQLPart.build a).1 = (SQLPart.build b).1) := by
  refine ⟨fun v => rfl, fun a b h => ?_⟩
  rw [← erase_build_text a, h, erase_build_text b]

/-- C3 witness: a literal holding text full of quotes and semicolons renders
as a bare placeholder, and two INSERT-shaped fragment lists differing only in
their literal values render the same text. -/
theorem literal_binding_safety_witness :
    SQLPart.build (.lit (.str "'; DROP TABLE journal; --")) =
      ("?", [.str "'; DROP TABLE journal; --"]) ∧
    (SQLPart.build (SQLPart.plist [.ident "title", .lit (.str "a")] "(" ")")).1 =
      (SQLPart.build (SQLPart.plist [.ident "title", .lit (.str "'; --\"")] "(" ")")).1 :=
  ⟨literal_binding_safety.1 _, literal_binding_safety.2 _ _ rfl⟩

/-- C5: for every initial string and sequence of fragments added to a
builder (nested list fragments included), `build()` returns the
concatenation of the fragments' rendered texts in append order paired with
the flattening of their parameter sequences in the same left-to-right order
(rendering is a pure function of this input, hence deterministic), and —
whenever no raw text, identifier or list prefix/postfix contains a `?` —
the number of `?` placeholders in the text equals the number of parameters,
each literal contributing exactly the placeholder at its own position, so
the i-th parameter corresponds to the i-th placeholder. -/
theorem builder_concat_flatten (init : String) (frags : List SQLPart)
    (h : init.data.all (fun c => c != '?') = true ∧
      ∀ f ∈ frags, SQLPart.noQ f = true) :
    (frags.foldl SQLBuilder.add (SQLBuilder.init init)).build =
      (init ++ String.join (frags.map fun f => (SQLPart.build f).1),
       (frags.map fun f => (SQLPart.build f).2).flatten) ∧
    ((frags.foldl SQLBuilder.add (SQLBuilder.init init)).build.1.data.count '?') =
      ((frags.foldl SQLBuilder.add (SQLBuilder.init init)).build.2).length := by
  have heq : (frags.foldl SQLBuilder.add (SQLBuilder.init init)).build =
      (init ++ String.join (frags.map fun f => (SQLPart.build f).1),
       (frags.map fun f => (SQLPart.build f).2).flatten) := by
    rw [foldl_add_state]
    unfold SQLBuilder.build SQLBuilder.init
    apply Prod.ext
    · apply String.ext
      simp [String.data_join, String.data_append]
    · simp
  refine ⟨heq, ?_⟩
  rw [heq]
  have hmap : frags.map (fun f => ((SQLPart.build f).1.data.count '?')) =
      frags.map (fun f => ((SQLPart.build f).2).length) :=
    List.map_congr_left (fun f hf => noQ_count f (h.2 f hf))
  simp only [String.data_append, List.count_append, String.data_join,
    List.count_flatten, List.length_flatten, List.map_map, Function.comp_def]
  rw [count_eq_zero_of_all_ne _ h.1, hmap]
  simp

/-- C5 witness at a concrete builder run with a nested list fragment. -/
theorem builder_concat_flatten_witness :
    ([SQLPart.ident "t",
      SQLPart.plist [SQLPart.lit (.int 1), SQLPart.lit (.str "x")] "(" ")"].foldl
        SQLBuilder.add (SQLBuilder.init "INSERT INTO ")).build =
      ("INSERT INTO \"t\"(?, ?)", [PyVal.int 1, PyVal.str "x"]) ∧
    ("INSERT INTO \"t\"(?, ?)" : String).data.count '?' =
      [PyVal.int 1, PyVal.str "x"].length := by
  have h := builder_concat_flatten "INSERT INTO "
    [SQLPart.ident "t",
     SQLPart.plist [SQLPart.lit (.int 1), SQLPart.lit (.str "x")] "(" ")"]
    ⟨by decide, by decide⟩
  exact ⟨h.1.trans (by decide), by decide⟩

theorem flatten_map_nil {α β : Type} (l : List α) :
    (l.map (fun _ => ([] : List β))).flatten = [] := by
  induction l with
  | nil => rfl
  | cons a rest ih => simp [ih]

theorem flatten_map_singleton {α β : Type} (l : List α) (g : α → β) :
    (l.map (fun a => [g a])).flatten = l.map g := by
  induction l with
  | nil => rfl
  | cons a rest ih => simp [ih]

theorem buildJoin_params (l : List SQLPart) : ∀ first,
    (SQLPart.buildJoin l first).2 =
      (l.map (fun o => (SQLPart.build o).2)).flatten := by
  induction l with
  | nil => intro first; simp [SQLPart.buildJoin]
  | cons o rest ih => intro first; simp [SQLPart.buildJoin, ih]

theorem insert_build_params (name : String) (fields : List (String × PyType))
    (r : Record) :
    (Model.insert_build name fields r).2 = fields.map (fun p => r p.1) := by
  unfold Model.insert_build
  simp [SQLBuilder.build, SQLBuilder.add, SQLBuilder.init, SQLPart.build,
    buildJoin_params, List.map_map, Function.comp_def, flatten_map_nil,
    flatten_map_singleton]

theorem update_build_params (name : String) (fields : List (String × PyType))
    (r : Record) :
    (Model.update_build name fields r).2 =
      fields.map (fun p => r p.1) ++ [r "rowid"] := by
  unfold Model.update_build
  simp [SQLBuilder.build, SQLBuilder.add, SQLBuilder.init, SQLPart.build,
    buildJoin_params, List.map_map, Function.comp_def, flatten_map_nil,
    flatten_map_singleton]

theorem insert_build_ne_update_build (name : String)
    (fields : List (String × PyType)) (r : Record) :
    Model.insert_build name fields r ≠ Model.update_build name fields r := by
  intro h
  have hlen : (Model.insert_build name fields r).2.length =
      (Model.update_build name fields r).2.length := by rw [h]
  rw [insert_build_params, update_build_params] at hlen
  simp at hlen

/-- C7 (counterexample): a record whose `rowid` attribute is the integer `0`
carries an identity (`rowid` is present, not `None`), yet `save` builds the
INSERT statement, not the UPDATE statement: the dispatch tests Python
truthiness of `rowid`, and `0` is falsy. -/
theorem save_rowid_zero_counterexample :
    ((Record.blank.setattr "title" (.str "x")).setattr "rowid" (.int 0)) "rowid" ≠
      PyVal.none ∧
    Model.save_build "journal" [("title", .str)]
        ((Record.blank.setattr "title" (.str "x")).setattr "rowid" (.int 0)) =
      Model.insert_build "journal" [("title", .str)]
        ((Record.blank.setattr "title" (.str "x")).setattr "rowid" (.int 0)) ∧
    Model.save_build "journal" [("title", .str)]
        ((Record.blank.setattr "title" (.str "x")).setattr "rowid" (.int 0)) ≠
      Model.update_build "journal" [("title", .str)]
        ((Record.blank.setattr "title" (.str "x")).setattr "rowid" (.int 0)) := by
  refine ⟨by decide, by decide, by decide⟩

/-- C7 (amended): `save` builds (and executes) the UPDATE statement exactly
when the record's `rowid` is truthy (present and non-zero/non-empty), and
the INSERT statement exactly when it is not; it performs no other action. -/
theorem save_dispatch_truthy (name : String) (fields : List (String × PyType))
    (r : Record) :
    (Model.save_build name fields r = Model.update_build name fields r ↔
      pyTruthy (r "rowid") = true) ∧
    (Model.save_build name fields r = Model.insert_build name fields r ↔
      pyTruthy (r "rowid") = false) := by
  have hsave : Model.save_build name fields r =
      if pyTruthy (r "rowid") = true then Model.update_build name fields r
      else Model.insert_build name fields r := rfl
  cases ht : pyTruthy (r "rowid") with
  | true =>
      rw [hsave, ht, if_pos rfl]
      refine ⟨by simp, ?_⟩
      constructor
      · intro h
        exact absurd h.symm (insert_build_ne_update_build name fields r)
      · intro h
        exact Bool.noConfusion h
  | false =>
      rw [hsave, ht, if_neg (by simp)]
      refine ⟨?_, by simp⟩
      constructor
      · intro h
        exact absurd h (insert_build_ne_update_build name fields r)
      · intro h
        exact Bool.noConfusion h

/-- C9: the `Record` constructor fails (with a `ValueError`, before any
persistence — it never touches the store) if and only if some supplied
keyword argument names neither a declared schema field nor `rowid`; with
only declared names (or `rowid`) supplied, construction succeeds. -/
theorem constructor_field_validation (fields : List (String × PyType))
    (name : String) (kwargs : List (String × PyVal)) :
    (Model.init fields name kwargs).isOk = true ↔
      ∀ k ∈ kwargs.map Prod.fst, k ∈ fields.map Prod.fst ∨ k = "rowid" := by
  unfold Model.init
  dsimp only
  split
  · rename_i kv hf
    simp only [Except.isOk, Except.toBool]
    constructor
    · intro h
      cases h
    · intro h
      exfalso
      have hp := List.find?_some hf
      have hm := List.mem_of_find?_eq_some hf
      have h2 := h kv.1 (List.mem_map_of_mem Prod.fst hm)
      simp only [Bool.not_eq_true', Bool.or_eq_false_iff] at hp
      rcases h2 with hmem | hrow
      · exact absurd hmem (by simpa using hp.1)
      · exact absurd hrow (by simpa using hp.2)
  · rename_i hf
    simp only [Except.isOk, Except.toBool]
    constructor
    · intro _ k hk
      rcases List.mem_map.mp hk with ⟨kv, hkv, rfl⟩
      have hn := List.find?_eq_none.mp hf kv hkv
      simp only [Bool.not_eq_true', Bool.not_eq_false] at hn
      rcases Bool.or_eq_true_iff.mp hn with h1 | h1
      · exact Or.inl (by simpa using h1)
      · exact Or.inr (by simpa using h1)
    · intro _
      trivial

theorem titleLoop_no_newline : ∀ (e title : List Char),
    (∀ c ∈ title, c ≠ '\n' ∧ c ≠ '\r') →
    ∀ c ∈ titleLoop e title, c ≠ '\n' ∧ c ≠ '\r' := by
  intro e
  induction e with
  | nil => intro title ht c hc; exact ht c hc
  | cons ch rest ih =>
      intro title ht c hc
      rw [titleLoop] at hc
      by_cases hnl : ch = '\n' ∨ ch = '\r'
      · rw [if_pos hnl] at hc
        exact ht c hc
      · rw [if_neg hnl] at hc
        push_neg at hnl
        have ht' : ∀ c ∈ title ++ [ch], c ≠ '\n' ∧ c ≠ '\r' := by
          intro c hc'
          rcases List.mem_append.mp hc' with h | h
          · exact ht c h
          · simp at h
            subst h
            exact hnl
        by_cases hlen : MAX_TITLE_LEN ≤ (title ++ [ch]).length
        · rw [if_pos hlen] at hc
          rcases List.mem_append.mp hc with h | h
          · exact ht' c h
          · simp at h
            subst h
            decide
        · rw [if_neg hlen] at hc
          exact ih (title ++ [ch]) ht' c hc

theorem titleLoop_length : ∀ (e title : List Char),
    title.length < MAX_TITLE_LEN →
    (titleLoop e title).length ≤ MAX_TITLE_LEN + 1 := by
  intro e
  induction e with
  | nil =>
      intro title ht
      rw [titleLoop]
      omega
  | cons ch rest ih =>
      intro title ht
      rw [titleLoop]
      by_cases hnl : ch = '\n' ∨ ch = '\r'
      · rw [if_pos hnl]
        omega
      · rw [if_neg hnl]
        by_cases hlen : MAX_TITLE_LEN ≤ (title ++ [ch]).length
        · rw [if_pos hlen]
          simp at hlen ⊢
          omega
        · rw [if_neg hlen]
          apply ih
          simp at hlen ⊢
          omega

/-- C10: for every input string, the title returned by `split_entry` contains
no newline or carriage-return character and has length at most
`MAX_TITLE_LEN + 1` (at most 80 characters taken from the entry plus, when
truncated, one appended ellipsis character). -/
theorem split_entry_title_shape (entry : String) :
    (∀ c ∈ (split_entry entry).1.data, c ≠ '\n' ∧ c ≠ '\r') ∧
    (split_entry entry).1.length ≤ MAX_TITLE_LEN + 1 := by
  constructor
  · intro c hc
    exact titleLoop_no_newline (pyLStrip entry.data) [] (by intro c hc'; cases hc')
      c hc
  · show (titleLoop (pyLStrip entry.data) []).length ≤ MAX_TITLE_LEN + 1
    exact titleLoop_length (pyLStrip entry.data) [] (by decide)

theorem lookup_eq_none_of_not_mem {β : Type} :
    ∀ (l : List (String × β)) (f : String),
      f ∉ l.map Prod.fst → l.lookup f = none := by
  intro l
  induction l with
  | nil => intro f _; rfl
  | cons p rest ih =>
      intro f h
      simp only [List.map_cons, List.mem_cons, not_or] at h
      cases p with
      | mk k v =>
          simp only [List.lookup, beq_eq_false_iff_ne.mpr h.1]
          exact ih f h.2

theorem lookup_eq_some_of_mem_nodup {β : Type} :
    ∀ (l : List (String × β)) (f : String) (b : β),
      (l.map Prod.fst).Nodup → (f, b) ∈ l → l.lookup f = some b := by
  intro l
  induction l with
  | nil => intro f b _ h; cases h
  | cons p rest ih =>
      intro f b hnd hm
      cases p with
      | mk k v =>
          rcases List.mem_cons.mp hm with h | h
          · rw [show f = k from congrArg Prod.fst h,
              show b = v from congrArg Prod.snd h]
            simp [List.lookup]
          · have hk : k ∉ rest.map Prod.fst :=
              (List.nodup_cons.mp (by simpa using hnd)).1
            have hne : f ≠ k := by
              intro he
              subst he
              exact hk (List.mem_map_of_mem Prod.fst h)
            simp only [List.lookup, beq_eq_false_iff_ne.mpr hne]
            exact ih f b (List.nodup_cons.mp (by simpa using hnd)).2 h

theorem foldlM_rowStep_ok (fields : List (String × PyType)) :
    ∀ (pairs : List (String × PyVal)) (inst : Record),
      (∀ fv ∈ pairs, stepOK fields fv = true) →
      List.foldlM (rowStep fields) inst pairs =
        some (pairs.foldl
          (fun i fv => i.setattr fv.1 (coerceStep fields fv)) inst) := by
  intro pairs
  induction pairs with
  | nil => intro inst _; rfl
  | cons fv rest ih =>
      intro inst hok
      have h1 := hok fv (List.mem_cons_self _ _)
      have hstep : rowStep fields inst fv =
          some (inst.setattr fv.1 (coerceStep fields fv)) := by
        unfold stepOK at h1
        unfold rowStep coerceStep
        cases hl : fields.lookup fv.1 with
        | none => rfl
        | some ty =>
            rw [hl] at h1
            dsimp only at h1 ⊢
            rcases Option.isSome_iff_exists.mp h1 with ⟨w, hw⟩
            rw [hw]
            rfl
      rw [List.foldlM_cons, hstep]
      simp only [Option.bind_eq_bind, Option.some_bind]
      exact ih _ (fun x hx => hok x (List.mem_cons_of_mem _ hx))

theorem foldl_setattr_not_mem (g : String × PyVal → PyVal) :
    ∀ (pairs : List (String × PyVal)) (r0 : Record) (f : String),
      f ∉ pairs.map Prod.fst →
      (pairs.foldl (fun i fv => i.setattr fv.1 (g fv)) r0) f = r0 f := by
  intro pairs
  induction pairs with
  | nil => intro r0 f _; rfl
  | cons fv rest ih =>
      intro r0 f h
      simp only [List.map_cons, List.mem_cons, not_or] at h
      rw [List.foldl_cons, ih _ f h.2]
      unfold Record.setattr
      rw [if_neg h.1]

theorem foldl_setattr_mem (g : String × PyVal → PyVal) :
    ∀ (pairs : List (String × PyVal)) (r0 : Record) (f : String) (v : PyVal),
      (pairs.map Prod.fst).Nodup → (f, v) ∈ pairs →
      (pairs.foldl (fun i fv => i.setattr fv.1 (g fv)) r0) f = g (f, v) := by
  intro pairs
  induction pairs with
  | nil => intro r0 f v _ h; cases h
  | cons fv rest ih =>
      intro r0 f v hnd hm
      rw [List.foldl_cons]
      rcases List.mem_cons.mp hm with h | h
      · have hf1 : fv.1 = f := (congrArg Prod.fst h).symm
        have hfr : f ∉ rest.map Prod.fst := by
          rw [← hf1]
          exact (List.nodup_cons.mp (by simpa using hnd)).1
        rw [foldl_setattr_not_mem g rest _ f hfr]
        unfold Record.setattr
        rw [if_pos hf1.symm]
        rw [← h]
      · exact ih _ f v (List.nodup_cons.mp (by simpa using hnd)).2 h

theorem buildJoin_eq_joinBuilt (l : List SQLPart) : ∀ first,
    SQLPart.buildJoin l first = joinBuilt (l.map SQLPart.build) first := by
  induction l with
  | nil => intro first; rfl
  | cons o rest ih => intro first; simp [SQLPart.buildJoin, joinBuilt, ih]

theorem build_plist_eq (l : List SQLPart) (pre post : String) :
    SQLPart.build (.plist l pre post) = plistBuilt (l.map SQLPart.build) pre post := by
  simp [SQLPart.build, plistBuilt, buildJoin_eq_joinBuilt]

theorem from_row_characterization (fields : List (String × PyType))
    (v0 : PyVal) (cells : List PyVal)
    (hnd : (fields.map Prod.fst).Nodup)
    (hrw : "rowid" ∉ fields.map Prod.fst)
    (hlen : cells.length = fields.length)
    (hok : ∀ p ∈ fields.zip cells, (value_to_type p.2 p.1.2).isSome = true) :
    ∃ q : Record,
      Model.from_row fields ("rowid" :: fields.map Prod.fst) (v0 :: cells) =
        some q ∧
      q "rowid" = v0 ∧
      ∀ p ∈ fields.zip cells,
        q p.1.1 = (value_to_type p.2 p.1.2).getD .none := by
  have hz : (fields.zip cells).map Prod.fst = fields :=
    List.map_fst_zip fields cells (by omega)
  have hz1 : (fields.zip cells).map (fun p => p.1.1) = fields.map Prod.fst := by
    calc (fields.zip cells).map (fun p => p.1.1)
        = ((fields.zip cells).map Prod.fst).map Prod.fst := by
          simp [List.map_map, Function.comp_def]
      _ = fields.map Prod.fst := by rw [hz]
  have hpairs : ("rowid" :: fields.map Prod.fst).zip (v0 :: cells) =
      ("rowid", v0) :: (fields.zip cells).map (fun p => (p.1.1, p.2)) := by
    rw [List.zip_cons_cons]
    congr 1
    rw [List.zip_map_left]
    rfl
  have hkeys : ((("rowid" :: fields.map Prod.fst).zip (v0 :: cells)).map
      Prod.fst) = "rowid" :: fields.map Prod.fst := by
    rw [hpairs]
    simp only [List.map_cons, List.map_map, Function.comp_def]
    rw [hz1]
  have hok2 : ∀ fv ∈ ("rowid" :: fields.map Prod.fst).zip (v0 :: cells),
      stepOK fields fv = true := by
    rw [hpairs]
    intro fv hfv
    rcases List.mem_cons.mp hfv with h | h
    · subst h
      unfold stepOK
      rw [lookup_eq_none_of_not_mem fields "rowid" hrw]
    · rcases List.mem_map.mp h with ⟨p, hp, hfv2⟩
      subst hfv2
      unfold stepOK
      have hmem : (p.1.1, p.1.2) ∈ fields := by
        have := (List.of_mem_zip hp).1
        simpa using this
      rw [lookup_eq_some_of_mem_nodup fields p.1.1 p.1.2 hnd hmem]
      dsimp only
      exact hok p hp
  unfold Model.from_row
  refine ⟨_, foldlM_rowStep_ok fields _ Record.blank hok2, ?_, ?_⟩
  · rw [hpairs, List.foldl_cons]
    rw [foldl_setattr_not_mem]
    · unfold Record.setattr
      rw [if_pos rfl]
      unfold coerceStep
      rw [lookup_eq_none_of_not_mem fields "rowid" hrw]
    · intro hcontra
      apply hrw
      rw [← hz1]
      simpa [List.map_map, Function.comp_def] using hcontra
  · intro p hp
    have hmem2 : (p.1.1, p.2) ∈ ("rowid" :: fields.map Prod.fst).zip (v0 :: cells) := by
      rw [hpairs]
      exact List.mem_cons_of_mem _ (List.mem_map_of_mem _ hp)
    have hnd2 : ((("rowid" :: fields.map Prod.fst).zip (v0 :: cells)).map
        Prod.fst).Nodup := by
      rw [hkeys]
      exact List.nodup_cons.mpr ⟨hrw, hnd⟩
    rw [foldl_setattr_mem (coerceStep fields) _ Record.blank p.1.1 p.2 hnd2 hmem2]
    unfold coerceStep
    have hmem : (p.1.1, p.1.2) ∈ fields := by
      have := (List.of_mem_zip hp).1
      simpa using this
    rw [lookup_eq_some_of_mem_nodup fields p.1.1 p.1.2 hnd hmem]


/-- C8: the SELECT statement names `rowid` followed by the declared fields in
declaration order (with no bound parameters), and for every raw row produced
by the store, `from_row` yields one `Record` whose identity equals the row's
first (`rowid`) column unconverted and whose value for each declared field
equals the coercion of the corresponding row column under that field's
declared type. -/
theorem query_row_mapping (name : String) (fields : List (String × PyType))
    (v0 : PyVal) (cells : List PyVal)
    (hnd : (fields.map Prod.fst).Nodup)
    (hrw : "rowid" ∉ fields.map Prod.fst)
    (hlen : cells.length = fields.length)
    (hok : ∀ p ∈ fields.zip cells, (value_to_type p.2 p.1.2).isSome = true) :
    (Model.query_build name fields).1 =
      "SELECT " ++ String.intercalate ", "
        (("rowid" :: fields.map Prod.fst).map quoteIdent) ++
        " FROM " ++ quoteIdent name ∧
    (Model.query_build name fields).2 = [] ∧
    ∃ q : Record,
      Model.from_row fields ("rowid" :: fields.map Prod.fst) (v0 :: cells) =
        some q ∧
      q "rowid" = v0 ∧
      ∀ p ∈ fields.zip cells,
        q p.1.1 = (value_to_type p.2 p.1.2).getD .none := by
  have hq : Model.query_build name fields =
      ("SELECT " ++ String.intercalate ", "
        (("rowid" :: fields.map Prod.fst).map quoteIdent) ++
        " FROM " ++ quoteIdent name, []) := by
    unfold Model.query_build
    apply Prod.ext
    · apply String.ext
      simp [SQLBuilder.build, SQLBuilder.add, SQLBuilder.init,
        buildJoin_eq_joinBuilt, joinBuilt_true_data, SQLPart.build,
        String.data_join, String.data_append, List.map_map, Function.comp_def]
    · simp [SQLBuilder.build, SQLBuilder.add, SQLBuilder.init,
        buildJoin_eq_joinBuilt, joinBuilt_snd, SQLPart.build, List.map_map,
        Function.comp_def, flatten_map_nil]
  exact ⟨by rw [hq], by rw [hq],
    from_row_characterization fields v0 cells hnd hrw hlen hok⟩

/-- C8 witness on the one-field schema, a stored text cell and rowid 7. -/
theorem query_row_mapping_witness :
    (Model.query_build "journal" [("title", PyType.str)]).1 =
      "SELECT " ++ String.intercalate ", "
        (("rowid" :: [("title", PyType.str)].map Prod.fst).map quoteIdent) ++
        " FROM " ++ quoteIdent "journal" ∧
    (Model.query_build "journal" [("title", PyType.str)]).2 = [] ∧
    ∃ q : Record,
      Model.from_row [("title", PyType.str)]
          ("rowid" :: [("title", PyType.str)].map Prod.fst)
          (PyVal.int 7 :: [PyVal.str "a"]) = some q ∧
      q "rowid" = PyVal.int 7 ∧
      ∀ p ∈ [("title", PyType.str)].zip [PyVal.str "a"],
        q p.1.1 = (value_to_type p.2 p.1.2).getD .none :=
  query_row_mapping "journal" [("title", PyType.str)] (.int 7) [.str "a"]
    (by decide) (by decide) (by decide) (by decide)

theorem digitVal_digitChar (m : Nat) (h : m < 10) :
    digitVal (Nat.digitChar m) = m ∧ isDig (Nat.digitChar m) = true := by
  interval_cases m <;> exact ⟨by decide, by decide⟩

theorem readNat_append (l1 l2 : List Char) : ∀ acc,
    readNat (l1 ++ l2) acc = readNat l2 (readNat l1 acc) := by
  induction l1 with
  | nil => intro acc; rfl
  | cons c cs ih => intro acc; simp [readNat, ih]

theorem readNat_padNat : ∀ (w n acc : Nat), n < 10 ^ w →
    readNat (padNat w n) acc = acc * 10 ^ w + n := by
  intro w
  induction w with
  | zero =>
      intro n acc h
      interval_cases n
      simp [padNat, readNat]
  | succ w ih =>
      intro n acc h
      have hdiv : n / 10 < 10 ^ w := by
        rw [Nat.div_lt_iff_lt_mul (by norm_num)]
        calc n < 10 ^ (w + 1) := h
          _ = 10 ^ w * 10 := by ring
      rw [padNat, readNat_append, ih (n / 10) acc hdiv]
      simp only [readNat]
      rw [(digitVal_digitChar (n % 10) (Nat.mod_lt _ (by norm_num))).1]
      calc (acc * 10 ^ w + n / 10) * 10 + n % 10
          = acc * (10 ^ w * 10) + (10 * (n / 10) + n % 10) := by ring
        _ = acc * 10 ^ (w + 1) + n := by rw [Nat.div_add_mod, ← pow_succ]

theorem padNat_length : ∀ (w n : Nat), (padNat w n).length = w := by
  intro w
  induction w with
  | zero => intro n; rfl
  | succ w ih => intro n; simp [padNat, ih]

theorem padNat_all_isDig : ∀ (w n : Nat), (padNat w n).all isDig = true := by
  intro w
  induction w with
  | zero => intro n; rfl
  | succ w ih =>
      intro n
      simp [padNat, List.all_append, ih,
        (digitVal_digitChar (n % 10) (Nat.mod_lt _ (by norm_num))).2]

theorem takeDigits_padNat (w n : Nat) (rest : List Char) (h : n < 10 ^ w) :
    takeDigits w (padNat w n ++ rest) = some (n, rest) := by
  have hlen := padNat_length w n
  have htake : (padNat w n ++ rest).take w = padNat w n :=
    List.take_left' hlen
  have hdrop : (padNat w n ++ rest).drop w = rest :=
    List.drop_left' hlen
  unfold takeDigits
  rw [htake, hdrop]
  rw [if_pos (by simp [hlen, padNat_all_isDig w n])]
  rw [readNat_padNat w n 0 h]
  simp

theorem expectChar_cons_eq (c : Char) (rest : List Char) :
    expectChar c (c :: rest) = some rest := by
  simp [expectChar]

theorem parseTimestamp_fmtDatetime (dt : PyDatetime) (h : dt.valid = true) :
    parseTimestamp (fmtDatetime dt) = some dt := by
  obtain ⟨y, mo, d, hh, mi, s⟩ := dt
  unfold PyDatetime.valid PyDate.valid PyDatetime.dateOf at h
  simp only [Bool.and_eq_true, decide_eq_true_eq] at h
  have e4 : (10:Nat) ^ 4 = 10000 := by norm_num
  have e2 : (10:Nat) ^ 2 = 100 := by norm_num
  have hy : y < 10 ^ 4 := by omega
  have hmo : mo < 10 ^ 2 := by omega
  have hd : d < 10 ^ 2 := by omega
  have hhh : hh < 10 ^ 2 := by omega
  have hmi : mi < 10 ^ 2 := by omega
  have hs : s < 10 ^ 2 := by omega
  unfold parseTimestamp fmtDatetime
  dsimp only
  simp only [List.cons_append, List.append_assoc]
  rw [takeDigits_padNat _ _ _ hy]
  simp only [Option.bind_eq_bind, Option.some_bind]
  rw [expectChar_cons_eq]
  simp only [Option.some_bind]
  rw [takeDigits_padNat _ _ _ hmo]
  simp only [Option.some_bind]
  rw [expectChar_cons_eq]
  simp only [Option.some_bind]
  rw [takeDigits_padNat _ _ _ hd]
  simp only [Option.some_bind]
  rw [expectChar_cons_eq]
  simp only [Option.some_bind]
  rw [takeDigits_padNat _ _ _ hhh]
  simp only [Option.some_bind]
  rw [expectChar_cons_eq]
  simp only [Option.some_bind]
  rw [takeDigits_padNat _ _ _ hmi]
  simp only [Option.some_bind]
  rw [expectChar_cons_eq]
  simp only [Option.some_bind]
  rw [show padNat 2 s = padNat 2 s ++ [] from (List.append_nil _).symm,
    takeDigits_padNat _ _ _ hs]
  rfl

theorem parseTimestamp_fmtDate (d : PyDate) (h : d.valid = true) :
    parseTimestamp (fmtDate d) = some ⟨d.year, d.month, d.day, 0, 0, 0⟩ := by
  obtain ⟨y, mo, dd⟩ := d
  unfold PyDate.valid at h
  simp only [Bool.and_eq_true, decide_eq_true_eq] at h
  have e4 : (10:Nat) ^ 4 = 10000 := by norm_num
  have e2 : (10:Nat) ^ 2 = 100 := by norm_num
  have hy : y < 10 ^ 4 := by omega
  have hmo : mo < 10 ^ 2 := by omega
  have hd : dd < 10 ^ 2 := by omega
  unfold parseTimestamp fmtDate
  dsimp only
  simp only [List.cons_append, List.append_assoc]
  rw [takeDigits_padNat _ _ _ hy]
  simp only [Option.bind_eq_bind, Option.some_bind]
  rw [expectChar_cons_eq]
  simp only [Option.some_bind]
  rw [takeDigits_padNat _ _ _ hmo]
  simp only [Option.some_bind]
  rw [expectChar_cons_eq]
  simp only [Option.some_bind]
  rw [show padNat 2 dd = padNat 2 dd ++ [] from (List.append_nil _).symm,
    takeDigits_padNat _ _ _ hd]
  rfl

theorem bind_coerce (v : PyVal) (ty : PyType) (h : storable v ty = true) :
    value_to_type (sqliteBind v) ty = some (naturalValue v ty) := by
  cases v with
  | none => cases ty <;> rfl
  | int n =>
      cases ty
      case int => rfl
      all_goals exact absurd h (by simp [storable])
  | float q =>
      cases ty
      case float => rfl
      all_goals exact absurd h (by simp [storable])
  | str s =>
      cases ty
      case str => rfl
      all_goals exact absurd h (by simp [storable])
  | bytes b =>
      cases ty
      case bytes => rfl
      all_goals exact absurd h (by simp [storable])
  | date d =>
      cases ty
      case date =>
        have h2 : d.valid = true := h
        show value_to_type (.str (fmtDate d)) .date =
          some (naturalValue (.date d) .date)
        unfold value_to_type
        rw [if_neg (by simp), if_neg (by decide), if_neg (by decide),
          if_neg (by decide), if_neg (by decide), if_pos (by decide)]
        dsimp only
        rw [parseTimestamp_fmtDate d h2]
        simp [PyDatetime.dateOf, naturalValue]
      all_goals exact absurd h (by simp [storable])
  | datetime dt =>
      cases ty
      case date =>
        have h2 : dt.valid = true := h
        show value_to_type (.str (fmtDatetime dt)) .date =
          some (naturalValue (.datetime dt) .date)
        unfold value_to_type
        rw [if_neg (by simp), if_neg (by decide), if_neg (by decide),
          if_neg (by decide), if_neg (by decide), if_pos (by decide)]
        dsimp only
        rw [parseTimestamp_fmtDatetime dt h2]
        rfl
      case datetime =>
        have h2 : dt.valid = true := h
        show value_to_type (.str (fmtDatetime dt)) .datetime =
          some (naturalValue (.datetime dt) .datetime)
        unfold value_to_type
        rw [if_neg (by simp), if_neg (by decide), if_neg (by decide),
          if_neg (by decide), if_pos (by decide)]
        dsimp only
        rw [parseTimestamp_fmtDatetime dt h2]
        rfl
      all_goals exact absurd h (by simp [storable])

/-- C1: a fresh `Record` (no identity) holding, for every declared field, a
value of the declared type (or `None`, or a timestamp for a `date` field),
persisted via `save()`, appears in a subsequent query of all rows as a
`Record` whose coerced value at every declared field equals the originally
supplied value up to the declared type's natural precision (a `date` field
retains only the calendar-date part of a supplied timestamp; every other
value is retained exactly). -/
theorem roundtrip_save_query (fields : List (String × PyType)) (r : Record)
    (t : Table)
    (hnd : (fields.map Prod.fst).Nodup)
    (hrw : "rowid" ∉ fields.map Prod.fst)
    (hfresh : pyTruthy (r "rowid") = false)
    (hst : ∀ p ∈ fields, storable (r p.1) p.2 = true) :
    ∃ q : Record,
      (Model.queryRecords fields (Model.saveExec fields r t).2).getLast? =
        some (some q) ∧
      ∀ p ∈ fields, q p.1 = naturalValue (r p.1) p.2 := by
  have hsave : (Model.saveExec fields r t).2 =
      t ++ [fields.map (fun p => sqliteBind (r p.1))] := by
    unfold Model.saveExec
    rw [if_neg (by simp [hfresh])]
    rfl
  have hzip : ∀ (l : List (String × PyType)),
      l.zip (l.map (fun p => sqliteBind (r p.1))) =
        l.map (fun p => (p, sqliteBind (r p.1))) := by
    intro l
    induction l with
    | nil => rfl
    | cons a l ih => simp [ih]
  have hok : ∀ p ∈ fields.zip (fields.map (fun p => sqliteBind (r p.1))),
      (value_to_type p.2 p.1.2).isSome = true := by
    rw [hzip fields]
    intro p hp
    rcases List.mem_map.mp hp with ⟨p0, hp0, rfl⟩
    dsimp only
    rw [bind_coerce (r p0.1) p0.2 (hst p0 hp0)]
    rfl
  have hlen : (fields.map (fun p => sqliteBind (r p.1))).length =
      fields.length := by simp
  obtain ⟨q, hq1, hq2, hq3⟩ := from_row_characterization fields
    (.int (t.length + 1)) (fields.map (fun p => sqliteBind (r p.1)))
    hnd hrw hlen hok
  refine ⟨q, ?_, ?_⟩
  · rw [hsave]
    unfold Model.queryRecords
    rw [show List.enum (t ++ [fields.map (fun p => sqliteBind (r p.1))]) =
        List.enum t ++ [(t.length, fields.map (fun p => sqliteBind (r p.1)))] by
      simp [List.enum_append]]
    rw [List.map_append]
    simp only [List.map_cons, List.map_nil]
    rw [List.getLast?_concat]
    rw [← hq1]
  · intro p hp
    have h3 := hq3 (p, sqliteBind (r p.1))
      (by rw [hzip fields]; exact List.mem_map_of_mem _ hp)
    dsimp only at h3
    rw [bind_coerce (r p.1) p.2 (hst p hp)] at h3
    simpa using h3

/-- C1 witness: a concrete journal entry (timestamps, text, one absent
field) saved into the empty store and read back. -/
theorem roundtrip_save_query_witness :
    ∃ q : Record,
      (Model.queryRecords Journal.fields
        (Model.saveExec Journal.fields journalSampleRecord []).2).getLast? =
        some (some q) ∧
      ∀ p ∈ Journal.fields,
        q p.1 = naturalValue (journalSampleRecord p.1) p.2 :=
  roundtrip_save_query Journal.fields journalSampleRecord []
    (by decide) (by decide) (by decide) (by decide)
